import Mathlib

set_option maxHeartbeats 1600000
set_option maxRecDepth 8000
set_option linter.unreachableTactic false
set_option linter.unusedTactic false
set_option linter.unnecessarySimpa false
set_option linter.unnecessarySeqFocus false
set_option linter.unusedVariables false

noncomputable section

/-! Shallow embedding of the boids simulation core (`src/boid.rs` of
    blargg/boids).  The `f32` arithmetic of the source is modelled by exact
    real arithmetic; nalgebra's `Point2<f32>` and `Vector2<f32>` are both
    modelled by `Vec2`.  Rust's in-place mutation is modelled by state
    passing: a method taking `&mut self` becomes a function returning the
    updated value. -/

/-- 2D vector over ℝ, modelling nalgebra `Vector2<f32>` / `Point2<f32>`. -/
@[ext]
structure Vec2 where
  x : ℝ
  y : ℝ

instance : Add Vec2 := ⟨fun a b => ⟨a.x + b.x, a.y + b.y⟩⟩

instance : Sub Vec2 := ⟨fun a b => ⟨a.x - b.x, a.y - b.y⟩⟩

instance : Neg Vec2 := ⟨fun a => ⟨-a.x, -a.y⟩⟩

instance : Zero Vec2 := ⟨⟨0, 0⟩⟩

/-- Vector-by-scalar multiplication `v * c` (nalgebra `Vector2<f32> * f32`). -/
instance : HMul Vec2 ℝ Vec2 := ⟨fun v c => ⟨v.x * c, v.y * c⟩⟩

/-- Scalar-by-vector multiplication `c * v` (nalgebra `f32 * Vector2<f32>`). -/
instance : HMul ℝ Vec2 Vec2 := ⟨fun c v => ⟨c * v.x, c * v.y⟩⟩

/-- Vector-by-scalar division `v / c` (nalgebra `Vector2<f32> / f32`). -/
instance : HDiv Vec2 ℝ Vec2 := ⟨fun v c => ⟨v.x / c, v.y / c⟩⟩

/-- nalgebra `magnitude_squared`. -/
def Vec2.magSq (v : Vec2) : ℝ := v.x * v.x + v.y * v.y

/-- nalgebra `magnitude`. -/
def Vec2.mag (v : Vec2) : ℝ := Real.sqrt v.magSq

/-- Instrumented vector-by-scalar division: `none` exactly when the
    divisor is zero.  Used to state that every division the source
    performs is guarded. -/
def Vec2.checkedDiv (v : Vec2) (c : ℝ) : Option Vec2 :=
  if c = 0 then none else some (v / c)

/-- `LOCAL_RANGE` from the source. -/
def LOCAL_RANGE : ℝ := 100

/-- `LOCAL_RANGE_SQ` from the source. -/
def LOCAL_RANGE_SQ : ℝ := LOCAL_RANGE * LOCAL_RANGE

/-- `MAX_SPEED` from the source. -/
def MAX_SPEED : ℝ := 400

/-- `MAX_ACC` from the source. -/
def MAX_ACC : ℝ := 600

/-- `MARGIN` from the source. -/
def MARGIN : ℝ := 100

/-- `OBS_ACC` from the source (`= MAX_ACC`). -/
def OBS_ACC : ℝ := MAX_ACC

/-- `struct Boid { position, velocity }`. -/
@[ext]
structure Boid where
  position : Vec2
  velocity : Vec2

instance : Inhabited Boid := ⟨⟨⟨0, 0⟩, ⟨1, 0⟩⟩⟩

/-- `Boid::new`: position `(x, y)`, velocity `Vector2::x_axis() = (1, 0)`. -/
def Boid.new (x y : ℝ) : Boid :=
  { position := ⟨x, y⟩, velocity := ⟨1, 0⟩ }

/-- `Boid::is_close`: squared distance strictly below `LOCAL_RANGE_SQ`. -/
def Boid.is_close (self other : Boid) : Bool :=
  let dist_sq := (self.position - other.position).magSq
  decide (dist_sq < LOCAL_RANGE_SQ)

/-- `Boid::acc_to_target_speed`. -/
def Boid.acc_to_target_speed (self : Boid) : Vec2 :=
  let v_mag := self.velocity.mag
  if v_mag > 0.001 then
    let diff := MAX_SPEED - v_mag
    self.velocity * diff / v_mag
  else
    ⟨1, 0⟩

/-- `Boid::avoid_point`. -/
def Boid.avoid_point (self : Boid) (point : Vec2) (radius : ℝ) : Vec2 :=
  let diff := self.position - point
  let diff_mag := diff.mag
  if diff_mag > 0.001 then
    let avoid_mag := radius - diff_mag
    if avoid_mag > 0 then diff * avoid_mag / diff_mag else 0
  else
    0

/-- `Boid::avoid`: accumulate `avoid_point` over the group, then average. -/
def Boid.avoid (self : Boid) (group : List Boid) : Vec2 :=
  let total := group.foldl (fun t boid => t + self.avoid_point boid.position LOCAL_RANGE) 0
  if group.length > 0 then total / (group.length : ℝ) else 0

/-- `Boid::avoid_obstacle`. -/
def Boid.avoid_obstacle (self : Boid) (obstacle : Option Vec2) : Vec2 :=
  match obstacle with
  | some point => self.avoid_point point 300
  | none => 0

/-- `Boid::avoid_bounds`: sequentially accumulated pushes from the four
    edges, exactly as in the source. -/
def Boid.avoid_bounds (self : Boid) (bounds : Vec2) : Vec2 :=
  let t0 : Vec2 := 0
  let t1 := if self.position.x < MARGIN then t0 + ⟨OBS_ACC, 0⟩ else t0
  let t2 := if self.position.y < MARGIN then t1 + ⟨0, OBS_ACC⟩ else t1
  let t3 := if self.position.x > bounds.x - MARGIN then t2 + ⟨-OBS_ACC, 0⟩ else t2
  if self.position.y > bounds.y - MARGIN then t3 + ⟨0, -OBS_ACC⟩ else t3

/-- `center_of_mass` (free function in the source). -/
def center_of_mass (group : List Boid) : Option Vec2 :=
  if group.length = 0 then none
  else
    let num : ℝ := group.length
    let total := group.foldl (fun t boid => t + boid.position) (0 : Vec2)
    some (total / num)

/-- `average_heading` (free function in the source). -/
def average_heading (group : List Boid) : Option Vec2 :=
  if group.length > 0 then
    let total := group.foldl (fun t boid => t + boid.velocity) (0 : Vec2)
    some (total / (group.length : ℝ))
  else
    none

/-- `Boid::to_center`. -/
def Boid.to_center (self : Boid) (group : List Boid) : Vec2 :=
  let com := (center_of_mass group).getD self.position
  com - self.position

/-- `Boid::match_heading`. -/
def Boid.match_heading (self : Boid) (group : List Boid) : Vec2 :=
  match average_heading group with
  | some group_heading => group_heading - self.velocity
  | none => 0

/-- `clamp_mag` (free function in the source). -/
def clamp_mag (v : Vec2) (mx : ℝ) : Vec2 :=
  let mag := v.mag
  if mag > mx then v * mx / mag else v

/-- `Boid::update`: combine the six steering contributions, clamp the
    acceleration, apply it scaled by `dt`, clamp the resulting speed. -/
def Boid.update (self : Boid) (neighbors : List Boid) (dt : ℝ) (bounds : Vec2)
    (obstacle : Option Vec2) : Boid :=
  let avoid_boids := self.avoid neighbors
  let to_center := self.to_center neighbors
  let match_heading := self.match_heading neighbors
  let acc_to_target_speed := self.acc_to_target_speed
  let avoid_bounds := self.avoid_bounds bounds
  let avoid_obstacle := self.avoid_obstacle obstacle
  let acc := (10 : ℝ) *
    ((6 : ℝ) * avoid_boids
      + to_center
      + match_heading
      + acc_to_target_speed
      + avoid_bounds
      + avoid_obstacle)
  let v1 := self.velocity + clamp_mag acc MAX_ACC * dt
  { self with velocity := clamp_mag v1 MAX_SPEED }

/-- `struct Flock`. -/
structure Flock where
  members : List Boid
  bounds : Vec2
  obstacle : Option Vec2
  neighbor_buffer : List Boid

/-- `Flock::empty`. -/
def Flock.empty (x y : ℝ) : Flock :=
  { members := [], bounds := ⟨x, y⟩, obstacle := none, neighbor_buffer := [] }

/-- `Flock::test_flock`: a 10×10 grid of boids spaced 10 units apart. -/
def Flock.test_flock (x y : ℝ) : Flock :=
  let rows : ℕ := 10
  let cols : ℕ := 10
  let members := (List.range rows).flatMap fun i =>
    (List.range cols).map fun j => Boid.new ((i : ℝ) * 10) ((j : ℝ) * 10)
  { members := members, bounds := ⟨x, y⟩, obstacle := none, neighbor_buffer := [] }

/-- `Flock::set_width`: sets `bounds.x`. -/
def Flock.set_width (self : Flock) (width : ℝ) : Flock :=
  { self with bounds := ⟨width, self.bounds.y⟩ }

/-- `Flock::set_height`: the source writes `self.bounds.x = width;`,
    leaving `bounds.y` untouched; the embedding reproduces that exactly. -/
def Flock.set_height (self : Flock) (width : ℝ) : Flock :=
  { self with bounds := ⟨width, self.bounds.y⟩ }

/-- `Flock::set_obstacle`. -/
def Flock.set_obstacle (self : Flock) (x y : ℝ) : Flock :=
  { self with obstacle := some ⟨x, y⟩ }

/-- `Flock::clear_obstacle`. -/
def Flock.clear_obstacle (self : Flock) : Flock :=
  { self with obstacle := none }

/-- `Flock::num_boids`. -/
def Flock.num_boids (self : Flock) : ℕ :=
  self.members.length

/-- The list built by `Flock::set_neighbor_buffer`: every boid at an index
    other than `member_index` that is close to the member at
    `member_index`, in stored order. -/
def Flock.neighborList (self : Flock) (member_index : ℕ) : List Boid :=
  let member := self.members.getD member_index default
  ((self.members.enum.filter fun p => (p.1 != member_index) && member.is_close p.2).map
    Prod.snd)

/-- `Flock::set_neighbor_buffer` as a state transformer. -/
def Flock.set_neighbor_buffer (self : Flock) (member_index : ℕ) : Flock :=
  { self with neighbor_buffer := self.neighborList member_index }

/-- One iteration of the first loop of `Flock::update`: refill the
    neighbor buffer for index `i`, then update member `i` in place. -/
def Flock.updateStep (dt : ℝ) (g : Flock) (i : ℕ) : Flock :=
  let g1 := g.set_neighbor_buffer i
  { g1 with
    members := g1.members.set i
      ((g1.members.getD i default).update g1.neighbor_buffer dt g1.bounds g1.obstacle) }

/-- The first `n` iterations of the velocity loop of `Flock::update`. -/
def Flock.loopTo (f : Flock) (dt : ℝ) (n : ℕ) : Flock :=
  (List.range n).foldl (Flock.updateStep dt) f

/-- `Flock::update_positions`. -/
def Flock.update_positions (self : Flock) (dt : ℝ) : Flock :=
  { self with
    members := self.members.map fun boid =>
      { boid with position := boid.position + dt * boid.velocity } }

/-- `Flock::update`: the in-place velocity loop over all indices, then
    position integration. -/
def Flock.update (self : Flock) (dt : ℝ) : Flock :=
  (self.loopTo dt self.members.length).update_positions dt

/-- Reference step following the spec's words: every agent's neighbor
    list is resolved against the immutable pre-step snapshot of the agent
    list before any velocity is mutated, then positions are integrated. -/
def Flock.snapshotUpdate (self : Flock) (dt : ℝ) : Flock :=
  let newMembers := (List.range self.members.length).map fun i =>
    (self.members.getD i default).update (self.neighborList i) dt self.bounds self.obstacle
  (({ self with members := newMembers } : Flock).update_positions dt)

/-- Spec-side model of the push away from the left edge (`x = 0`):
    fixed magnitude `OBS_ACC` whenever the agent is within `MARGIN` of it. -/
def leftPush (p : Vec2) : Vec2 :=
  if p.x < MARGIN then ⟨OBS_ACC, 0⟩ else 0

/-- Spec-side model of the push away from the bottom edge (`y = 0`). -/
def bottomPush (p : Vec2) : Vec2 :=
  if p.y < MARGIN then ⟨0, OBS_ACC⟩ else 0

/-- Spec-side model of the push away from the right edge (`x = bounds.x`). -/
def rightPush (p bounds : Vec2) : Vec2 :=
  if p.x > bounds.x - MARGIN then ⟨-OBS_ACC, 0⟩ else 0

/-- Spec-side model of the push away from the top edge (`y = bounds.y`). -/
def topPush (p bounds : Vec2) : Vec2 :=
  if p.y > bounds.y - MARGIN then ⟨0, -OBS_ACC⟩ else 0

/-- Spec-side model of boundary avoidance: the four independent edge
    pushes summed. -/
def edgePushSum (p bounds : Vec2) : Vec2 :=
  leftPush p + bottomPush p + rightPush p bounds + topPush p bounds

/-- The neighbor scan with the self-index guard removed: filtering by
    `is_close` alone. -/
def Flock.neighborListAllClose (self : Flock) (member_index : ℕ) : List Boid :=
  let member := self.members.getD member_index default
  ((self.members.enum.filter fun p => member.is_close p.2).map Prod.snd)

/-- `Boid::avoid_point` with its division instrumented. -/
def Boid.avoid_pointChecked (self : Boid) (point : Vec2) (radius : ℝ) : Option Vec2 :=
  let diff := self.position - point
  let diff_mag := diff.mag
  if diff_mag > 0.001 then
    let avoid_mag := radius - diff_mag
    if avoid_mag > 0 then (diff * avoid_mag).checkedDiv diff_mag else some 0
  else
    some 0

/-- `Boid::acc_to_target_speed` with its division instrumented. -/
def Boid.acc_to_target_speedChecked (self : Boid) : Option Vec2 :=
  let v_mag := self.velocity.mag
  if v_mag > 0.001 then
    let diff := MAX_SPEED - v_mag
    (self.velocity * diff).checkedDiv v_mag
  else
    some ⟨1, 0⟩

/-- `clamp_mag` with its division instrumented. -/
def clamp_magChecked (v : Vec2) (mx : ℝ) : Option Vec2 :=
  let mag := v.mag
  if mag > mx then (v * mx).checkedDiv mag else some v

/-- `center_of_mass` with its division instrumented: the outer `Option`
    is `none` exactly when a division by zero would occur, the inner
    `Option` is the source's return value. -/
def center_of_massChecked (group : List Boid) : Option (Option Vec2) :=
  if group.length = 0 then some none
  else
    let num : ℝ := group.length
    let total := group.foldl (fun t boid => t + boid.position) (0 : Vec2)
    (total.checkedDiv num).map some

/-- `average_heading` with its division instrumented. -/
def average_headingChecked (group : List Boid) : Option (Option Vec2) :=
  if group.length > 0 then
    let total := group.foldl (fun t boid => t + boid.velocity) (0 : Vec2)
    (total.checkedDiv (group.length : ℝ)).map some
  else
    some none

/-- Concrete boid A used in counterexamples: close to B, speed 390. -/
def exA : Boid := { position := ⟨500, 500⟩, velocity := ⟨390, 0⟩ }

/-- Concrete boid B used in counterexamples: 90 units above A, speed 390. -/
def exB : Boid := { position := ⟨500, 590⟩, velocity := ⟨390, 0⟩ }

/-- Boid A after the first in-place loop iteration of `exFlock.update (1/100)`. -/
def exA1 : Boid := { position := ⟨500, 500⟩, velocity := ⟨391, 3⟩ }

/-- Boid B after the in-place step of `exFlock.update (1/100)`: its
    alignment term saw A's already-updated velocity `(391, 3)`. -/
def exB1 : Boid := { position := ⟨500, 590⟩, velocity := ⟨3911 / 10, -27 / 10⟩ }

/-- Boid B after the snapshot reference step: its alignment term saw A's
    pre-step velocity `(390, 0)`. -/
def exB1snap : Boid := { position := ⟨500, 590⟩, velocity := ⟨391, -3⟩ }

/-- Concrete two-boid flock used in counterexamples. -/
def exFlock : Flock :=
  { members := [exA, exB], bounds := ⟨1000, 1000⟩, obstacle := none, neighbor_buffer := [] }

/-- Concrete one-boid flock used in witnesses. -/
def oneBoidFlock : Flock :=
  { members := [Boid.new 0 0], bounds := ⟨1, 1⟩, obstacle := none, neighbor_buffer := [] }

/-! ### Component lemmas for `Vec2` -/

@[simp]
theorem Vec2.add_x (a b : Vec2) : (a + b).x = a.x + b.x := rfl

@[simp]
theorem Vec2.add_y (a b : Vec2) : (a + b).y = a.y + b.y := rfl

@[simp]
theorem Vec2.sub_x (a b : Vec2) : (a - b).x = a.x - b.x := rfl

@[simp]
theorem Vec2.sub_y (a b : Vec2) : (a - b).y = a.y - b.y := rfl

@[simp]
theorem Vec2.neg_x (a : Vec2) : (-a).x = -a.x := rfl

@[simp]
theorem Vec2.neg_y (a : Vec2) : (-a).y = -a.y := rfl

@[simp]
theorem Vec2.zero_x : (0 : Vec2).x = 0 := rfl

@[simp]
theorem Vec2.zero_y : (0 : Vec2).y = 0 := rfl

@[simp]
theorem Vec2.mulR_x (v : Vec2) (c : ℝ) : (v * c).x = v.x * c := rfl

@[simp]
theorem Vec2.mulR_y (v : Vec2) (c : ℝ) : (v * c).y = v.y * c := rfl

@[simp]
theorem Vec2.mulL_x (c : ℝ) (v : Vec2) : (c * v).x = c * v.x := rfl

@[simp]
theorem Vec2.mulL_y (c : ℝ) (v : Vec2) : (c * v).y = c * v.y := rfl

@[simp]
theorem Vec2.div_x (v : Vec2) (c : ℝ) : (v / c).x = v.x / c := rfl

@[simp]
theorem Vec2.div_y (v : Vec2) (c : ℝ) : (v / c).y = v.y / c := rfl

theorem Vec2.magSq_def (v : Vec2) : v.magSq = v.x * v.x + v.y * v.y := rfl

theorem Vec2.mag_def (v : Vec2) : v.mag = Real.sqrt (v.x * v.x + v.y * v.y) := rfl

theorem Vec2.magSq_nonneg (v : Vec2) : 0 ≤ v.magSq := by
  have hx := mul_self_nonneg v.x
  have hy := mul_self_nonneg v.y
  simpa [Vec2.magSq_def] using add_nonneg hx hy

theorem Vec2.mag_nonneg (v : Vec2) : 0 ≤ v.mag := Real.sqrt_nonneg _

/-! ### Elementary list lemmas used by the loop reasoning -/

theorem list_getD_set_ne {α : Type} :
    ∀ (l : List α) (i j : ℕ) (a d : α), i ≠ j → (l.set i a).getD j d = l.getD j d := by
  intro l
  induction l with
  | nil => intro i j a d _; rfl
  | cons x t ih =>
    intro i j a d h
    cases i with
    | zero =>
      cases j with
      | zero => exact absurd rfl h
      | succ j => simp [List.set]
    | succ i =>
      cases j with
      | zero => simp [List.set]
      | succ j => simpa [List.set] using ih i j a d (by omega)

theorem list_getD_set_self {α : Type} :
    ∀ (l : List α) (i : ℕ) (a d : α), i < l.length → (l.set i a).getD i d = a := by
  intro l
  induction l with
  | nil => intro i a d h; simp at h
  | cons x t ih =>
    intro i a d h
    cases i with
    | zero => simp [List.set]
    | succ i =>
      simp only [List.length_cons] at h
      simpa [List.set] using ih i a d (by omega)

theorem list_set_of_le {α : Type} :
    ∀ (l : List α) (i : ℕ) (a : α), l.length ≤ i → l.set i a = l := by
  intro l
  induction l with
  | nil => intro i a _; rfl
  | cons x t ih =>
    intro i a h
    cases i with
    | zero => simp at h
    | succ i =>
      simp only [List.length_cons] at h
      simpa [List.set] using ih i a (by omega)

theorem list_map_set {α β : Type} :
    ∀ (l : List α) (f : α → β) (i : ℕ) (a : α),
      (l.set i a).map f = (l.map f).set i (f a) := by
  intro l
  induction l with
  | nil => intro f i a; rfl
  | cons x t ih =>
    intro f i a
    cases i with
    | zero => simp [List.set]
    | succ i => simp [List.set, ih f i a]

theorem list_set_getD_self {α : Type} :
    ∀ (l : List α) (i : ℕ) (d : α), l.set i (l.getD i d) = l := by
  intro l
  induction l with
  | nil => intro i d; rfl
  | cons x t ih =>
    intro i d
    cases i with
    | zero => simp [List.set]
    | succ i => simpa [List.set] using ih i d

theorem list_getD_map {α β : Type} :
    ∀ (l : List α) (f : α → β) (i : ℕ) (d : α),
      (l.map f).getD i (f d) = f (l.getD i d) := by
  intro l
  induction l with
  | nil => intro f i d; rfl
  | cons x t ih =>
    intro f i d
    cases i with
    | zero => simp
    | succ i => simp [ih f i d]

theorem list_getD_eq_get {α : Type} :
    ∀ (l : List α) (i : ℕ) (d : α) (h : i < l.length), l.getD i d = l.get ⟨i, h⟩ := by
  intro l
  induction l with
  | nil => intro i d h; simp at h
  | cons x t ih =>
    intro i d h
    cases i with
    | zero => simp
    | succ i =>
      simp only [List.length_cons] at h
      simpa using ih i d (by omega)

/-! ### Magnitude and clamp lemmas -/

theorem clamp_mag_of_not_gt (v : Vec2) (mx : ℝ) (h : ¬ v.mag > mx) :
    clamp_mag v mx = v := by
  simp [clamp_mag, h]

theorem mag_mul_div (v : Vec2) (a b : ℝ) :
    (v * a / b).mag = v.mag * |a / b| := by
  have h1 : (v * a / b).magSq = v.magSq * (a / b) ^ 2 := by
    simp only [Vec2.magSq_def, Vec2.div_x, Vec2.div_y, Vec2.mulR_x, Vec2.mulR_y]
    ring
  have h2 : (v * a / b).mag = Real.sqrt (v.magSq * (a / b) ^ 2) := by
    rw [Vec2.mag, h1]
  rw [h2, Real.sqrt_mul (Vec2.magSq_nonneg v), Real.sqrt_sq_eq_abs]
  rfl

theorem clamp_mag_mag_le (v : Vec2) (mx : ℝ) (hmx : 0 ≤ mx) :
    (clamp_mag v mx).mag ≤ mx := by
  by_cases h : v.mag > mx
  · have hv : 0 < v.mag := lt_of_le_of_lt hmx h
    have : (v * mx / v.mag).mag = mx := by
      rw [mag_mul_div]
      rw [abs_of_nonneg (div_nonneg hmx (le_of_lt hv))]
      field_simp
    simpa [clamp_mag, h] using le_of_eq this
  · push_neg at h
    simpa [clamp_mag, not_lt.mpr h] using h

theorem clamp_mag_idem (v : Vec2) (mx : ℝ) (hmx : 0 < mx) :
    clamp_mag (clamp_mag v mx) mx = clamp_mag v mx :=
  clamp_mag_of_not_gt _ _ (not_lt.mpr (clamp_mag_mag_le v mx (le_of_lt hmx)))

/-- `is_close` is reflexive: the squared self-distance is `0 < 10000`. -/
theorem is_close_self (b : Boid) : b.is_close b = true := by
  simp only [Boid.is_close, decide_eq_true_eq]
  have h : (b.position - b.position).magSq = 0 := by
    simp [Vec2.magSq_def]
  rw [h]
  norm_num [LOCAL_RANGE_SQ, LOCAL_RANGE]

/-- Membership of the `i`-th element, paired with its index, in `enumFrom`. -/
theorem list_getD_mem_enumFrom {α : Type} :
    ∀ (l : List α) (k i : ℕ) (d : α), i < l.length → (k + i, l.getD i d) ∈ l.enumFrom k := by
  intro l
  induction l with
  | nil => intro k i d h; simp at h
  | cons x t ih =>
    intro k i d h
    cases i with
    | zero => simp [List.enumFrom]
    | succ i =>
      have hm := ih (k + 1) i d (by simpa using h)
      have harith : k + (i + 1) = (k + 1) + i := by omega
      simp only [List.enumFrom, List.mem_cons]
      right
      rw [harith]
      simpa using hm

/-- Instrumented division returns a value whenever the divisor is nonzero. -/
theorem checkedDiv_of_ne (v : Vec2) (c : ℝ) (h : c ≠ 0) :
    v.checkedDiv c = some (v / c) := by
  simp [Vec2.checkedDiv, h]

/-! ### Claim theorems -/

/-- C7: `Agent.update` mutates only the agent's velocity: the position is
    unchanged, and the whole result is the input boid with just its
    velocity field replaced.  Purity (no other side effects, no hidden
    state) is intrinsic to the functional embedding: `Boid.update` is a
    function of the boid and its four inputs alone. -/
theorem update_mutates_velocity_only (b : Boid) (ns : List Boid) (dt : ℝ)
    (bd : Vec2) (ob : Option Vec2) :
    (b.update ns dt bd ob).position = b.position ∧
      b.update ns dt bd ob = { b with velocity := (b.update ns dt bd ob).velocity } :=
  ⟨rfl, rfl⟩

/-- C6: `is_close` is symmetric, and it holds exactly when the squared
    Euclidean distance between the positions is strictly less than 10000. -/
theorem is_close_symm_and_range (A B : Boid) :
    A.is_close B = B.is_close A ∧
      (A.is_close B = true ↔ (A.position - B.position).magSq < 10000) := by
  constructor
  · simp only [Boid.is_close]
    apply decide_eq_decide.mpr
    have h : (A.position - B.position).magSq = (B.position - A.position).magSq := by
      simp only [Vec2.magSq_def, Vec2.sub_x, Vec2.sub_y]
      ring
    rw [h]
  · simp only [Boid.is_close, decide_eq_true_eq]
    norm_num [LOCAL_RANGE_SQ, LOCAL_RANGE]

/-- Witness for C6 at the concrete pair `exA`, `exB`. -/
theorem is_close_symm_and_range_witness : exA.is_close exB = true :=
  (is_close_symm_and_range exA exB).2.mpr (by norm_num [exA, exB, Vec2.magSq_def])

/-- C8: `clamp_mag` is an idempotent magnitude projection for every
    positive bound: it leaves `v` unchanged when `|v| ≤ max` and rescales
    to `v * max / |v|` otherwise. -/
theorem clamp_mag_idempotent (v : Vec2) (mx : ℝ) (hmx : 0 < mx) :
    clamp_mag (clamp_mag v mx) mx = clamp_mag v mx ∧
      (v.mag ≤ mx → clamp_mag v mx = v) ∧
      (v.mag > mx → clamp_mag v mx = v * mx / v.mag) := by
  refine ⟨clamp_mag_idem v mx hmx, ?_, ?_⟩
  · intro h
    exact clamp_mag_of_not_gt v mx (not_lt.mpr h)
  · intro h
    simp [clamp_mag, h]

/-- Witness for C8 at `v = (3, 4)`, `max = 5`. -/
theorem clamp_mag_idempotent_witness :
    (0 : ℝ) < 5 ∧ clamp_mag (clamp_mag ⟨3, 4⟩ 5) 5 = clamp_mag ⟨3, 4⟩ 5 :=
  ⟨by norm_num, (clamp_mag_idempotent ⟨3, 4⟩ 5 (by norm_num)).1⟩

/-- C9: `is_close` is reflexively true, so exclusion of an agent from its
    own neighbor set is achieved solely by the index guard of the
    population's scan: with the guard removed, the member itself is
    always picked up by the `is_close` filter. -/
theorem is_close_self_and_index_guard :
    (∀ b : Boid, b.is_close b = true) ∧
      ∀ (f : Flock) (i : ℕ), i < f.members.length →
        f.members.getD i default ∈ f.neighborListAllClose i := by
  refine ⟨is_close_self, ?_⟩
  intro f i hi
  unfold Flock.neighborListAllClose
  apply List.mem_map.mpr
  refine ⟨(i, f.members.getD i default), ?_, rfl⟩
  apply List.mem_filter.mpr
  constructor
  · have h := list_getD_mem_enumFrom f.members 0 i default hi
    simpa [List.enum] using h
  · exact is_close_self _

/-- Witness for C9 on a one-boid flock. -/
theorem is_close_self_and_index_guard_witness :
    0 < oneBoidFlock.members.length ∧
      oneBoidFlock.members.getD 0 default ∈ oneBoidFlock.neighborListAllClose 0 :=
  ⟨by simp [oneBoidFlock],
    is_close_self_and_index_guard.2 oneBoidFlock 0 (by simp [oneBoidFlock])⟩

/-- C10: every division performed during an agent update is guarded: the
    instrumented variants
    (which return `none` exactly when they would divide by zero) always
    return the value of the corresponding source function; `clamp_mag`
    divides only when the magnitude exceeds the positive bound. -/
theorem division_guards :
    (∀ (b : Boid) (point : Vec2) (radius : ℝ),
        b.avoid_pointChecked point radius = some (b.avoid_point point radius)) ∧
      (∀ b : Boid, b.acc_to_target_speedChecked = some b.acc_to_target_speed) ∧
      (∀ (v : Vec2) (mx : ℝ), 0 < mx → clamp_magChecked v mx = some (clamp_mag v mx)) ∧
      (∀ g : List Boid, center_of_massChecked g = some (center_of_mass g)) ∧
      (∀ g : List Boid, average_headingChecked g = some (average_heading g)) := by
  refine ⟨?_, ?_, ?_, ?_, ?_⟩
  · intro b point radius
    by_cases h1 : (b.position - point).mag > 0.001
    · have hne : (b.position - point).mag ≠ 0 :=
        ne_of_gt (lt_trans (by norm_num) h1)
      by_cases h2 : radius - (b.position - point).mag > 0
      · simp [Boid.avoid_pointChecked, Boid.avoid_point, h1, h2, checkedDiv_of_ne _ _ hne]
      · simp [Boid.avoid_pointChecked, Boid.avoid_point, h1, h2]
    · simp [Boid.avoid_pointChecked, Boid.avoid_point, h1]
  · intro b
    by_cases h1 : b.velocity.mag > 0.001
    · have hne : b.velocity.mag ≠ 0 :=
        ne_of_gt (lt_trans (by norm_num) h1)
      simp [Boid.acc_to_target_speedChecked, Boid.acc_to_target_speed, h1,
        checkedDiv_of_ne _ _ hne]
    · simp [Boid.acc_to_target_speedChecked, Boid.acc_to_target_speed, h1]
  · intro v mx hmx
    by_cases h1 : v.mag > mx
    · have hne : v.mag ≠ 0 := ne_of_gt (lt_trans hmx h1)
      simp [clamp_magChecked, clamp_mag, h1, checkedDiv_of_ne _ _ hne]
    · simp [clamp_magChecked, clamp_mag, h1]
  · intro g
    by_cases h : g.length = 0
    · simp [center_of_massChecked, center_of_mass, h]
    · have hne : ((g.length : ℝ)) ≠ 0 := Nat.cast_ne_zero.mpr h
      simp [center_of_massChecked, center_of_mass, h, checkedDiv_of_ne _ _ hne]
  · intro g
    by_cases h : g.length > 0
    · have hne : ((g.length : ℝ)) ≠ 0 := Nat.cast_ne_zero.mpr (by omega)
      simp [average_headingChecked, average_heading, h, checkedDiv_of_ne _ _ hne]
    · simp [average_headingChecked, average_heading, h]

/-- Witness for C10 at `v = (1, 2)`, `max = 5`. -/
theorem division_guards_witness :
    (0 : ℝ) < 5 ∧ clamp_magChecked ⟨1, 2⟩ 5 = some (clamp_mag ⟨1, 2⟩ 5) :=
  ⟨by norm_num, division_guards.2.2.1 ⟨1, 2⟩ 5 (by norm_num)⟩

/-- C3 (code bug): evaluating the two bounds setters at a concrete input.
    Starting from bounds `(1, 2)`, `set_width 300` then `set_height 400`
    leaves bounds `(400, 2)` — `Flock::set_height` writes `bounds.x`, so
    the claimed final bounds `(300, 400)` are not produced.  Agents,
    obstacle and agent count are indeed untouched. -/
theorem set_height_writes_x :
    (((Flock.empty 1 2).set_width 300).set_height 400).bounds = ⟨400, 2⟩ ∧
      (((Flock.empty 1 2).set_width 300).set_height 400).bounds ≠ ⟨300, 400⟩ ∧
      (∀ (f : Flock) (w h : ℝ),
        ((f.set_width w).set_height h).members = f.members ∧
        ((f.set_width w).set_height h).obstacle = f.obstacle ∧
        ((f.set_width w).set_height h).num_boids = f.num_boids) := by
  refine ⟨rfl, ?_, ?_⟩
  · intro h
    have hx := congrArg Vec2.x h
    norm_num [Flock.empty, Flock.set_width, Flock.set_height] at hx
  · intro f w h
    exact ⟨rfl, rfl, rfl⟩

/-- C5: `avoid_bounds` is the sum of four independent fixed-magnitude
    edge pushes (each active when the agent is within `MARGIN` of its
    edge), and an agent at `(50, 500)` with bounds `(1000, 1000)`
    receives exactly the contribution `(600, 0)`. -/
theorem avoid_bounds_edge_sum (b : Boid) (bounds : Vec2) :
    b.avoid_bounds bounds = edgePushSum b.position bounds ∧
      ∀ v : Vec2, (Boid.mk ⟨50, 500⟩ v).avoid_bounds ⟨1000, 1000⟩ = ⟨600, 0⟩ := by
  constructor
  · simp only [Boid.avoid_bounds, edgePushSum, leftPush, bottomPush, rightPush, topPush]
    split_ifs <;> ext <;> simp <;> ring
  · intro v
    have h1 : (50 : ℝ) < MARGIN := by norm_num [MARGIN]
    have h2 : ¬ ((500 : ℝ) < MARGIN) := by norm_num [MARGIN]
    have h3 : ¬ ((50 : ℝ) > (1000 : ℝ) - MARGIN) := by norm_num [MARGIN]
    have h4 : ¬ ((500 : ℝ) > (1000 : ℝ) - MARGIN) := by norm_num [MARGIN]
    simp only [Boid.avoid_bounds, h1, h2, h3, h4, if_true, if_false]
    ext <;> simp [OBS_ACC, MAX_ACC]

/-- C4: `test_flock` produces exactly 100 boids, whose positions are
    exactly the grid `{(10 i, 10 j) : i, j < 10}` with velocity `(1, 0)`
    each, independently of the constructor's `w`, `h` arguments. -/
theorem test_flock_grid (w h w' h' : ℝ) :
    (Flock.test_flock w h).members.length = 100 ∧
      (∀ b : Boid, b ∈ (Flock.test_flock w h).members ↔
        ∃ i j : ℕ, i < 10 ∧ j < 10 ∧
          b.position = ⟨10 * (i : ℝ), 10 * (j : ℝ)⟩ ∧ b.velocity = ⟨1, 0⟩) ∧
      (Flock.test_flock w h).members = (Flock.test_flock w' h').members := by
  refine ⟨rfl, ?_, rfl⟩
  intro b
  constructor
  · intro hb
    have hb2 : b ∈ (List.range 10).flatMap
        (fun i => (List.range 10).map fun j : ℕ => Boid.new ((i : ℝ) * 10) ((j : ℝ) * 10)) := hb
    obtain ⟨i, hi, hbi⟩ := List.mem_flatMap.mp hb2
    obtain ⟨j, hj, hbj⟩ := List.mem_map.mp hbi
    subst hbj
    refine ⟨i, j, List.mem_range.mp hi, List.mem_range.mp hj, ?_, rfl⟩
    apply Vec2.ext <;> simp [Boid.new] <;> ring
  · rintro ⟨i, j, hi, hj, hp, hv⟩
    show b ∈ (List.range 10).flatMap
      (fun i => (List.range 10).map fun j : ℕ => Boid.new ((i : ℝ) * 10) ((j : ℝ) * 10))
    apply List.mem_flatMap.mpr
    refine ⟨i, List.mem_range.mpr hi, ?_⟩
    apply List.mem_map.mpr
    refine ⟨j, List.mem_range.mpr hj, ?_⟩
    apply Boid.ext
    · rw [hp]
      apply Vec2.ext <;> simp [Boid.new] <;> ring
    · rw [hv]
      rfl

/-- Witness for C4: the origin boid is a member of `test_flock 1 2`. -/
theorem test_flock_grid_witness : Boid.new 0 0 ∈ (Flock.test_flock 1 2).members :=
  ((test_flock_grid 1 2 3 4).2.1 (Boid.new 0 0)).mpr
    ⟨0, 0, by norm_num, by norm_num, by simp [Boid.new], rfl⟩

/-! ### The in-place velocity loop -/

theorem update_speed_le (b : Boid) (ns : List Boid) (dt : ℝ) (bd : Vec2)
    (ob : Option Vec2) : (b.update ns dt bd ob).velocity.mag ≤ MAX_SPEED := by
  simp only [Boid.update]
  exact clamp_mag_mag_le _ _ (by norm_num [MAX_SPEED])

theorem updateStep_members (dt : ℝ) (g : Flock) (i : ℕ) :
    (Flock.updateStep dt g i).members =
      g.members.set i
        ((g.members.getD i default).update (g.neighborList i) dt g.bounds g.obstacle) := rfl

theorem updateStep_bounds (dt : ℝ) (g : Flock) (i : ℕ) :
    (Flock.updateStep dt g i).bounds = g.bounds := rfl

theorem updateStep_obstacle (dt : ℝ) (g : Flock) (i : ℕ) :
    (Flock.updateStep dt g i).obstacle = g.obstacle := rfl

theorem loopTo_zero (f : Flock) (dt : ℝ) : f.loopTo dt 0 = f := rfl

theorem loopTo_succ (f : Flock) (dt : ℝ) (n : ℕ) :
    f.loopTo dt (n + 1) = Flock.updateStep dt (f.loopTo dt n) n := by
  rw [Flock.loopTo, Flock.loopTo, List.range_succ, List.foldl_append]
  rfl

theorem loopTo_length (f : Flock) (dt : ℝ) :
    ∀ n, (f.loopTo dt n).members.length = f.members.length := by
  intro n
  induction n with
  | zero => rfl
  | succ n ih =>
    rw [loopTo_succ, updateStep_members, List.length_set]
    exact ih

theorem list_mem_getD {α : Type} [Inhabited α] (l : List α) (b : α) (hb : b ∈ l) :
    ∃ j, ∃ _ : j < l.length, l.getD j default = b := by
  obtain ⟨⟨j, hj⟩, hget⟩ := List.mem_iff_get.mp hb
  exact ⟨j, hj, by rw [list_getD_eq_get _ _ _ hj]; exact hget⟩

theorem loopTo_speed_le (f : Flock) (dt : ℝ) :
    ∀ n j, j < n → j < f.members.length →
      ((f.loopTo dt n).members.getD j default).velocity.mag ≤ MAX_SPEED := by
  intro n
  induction n with
  | zero => intro j hj _; omega
  | succ n ih =>
    intro j hj hjlen
    rw [loopTo_succ, updateStep_members]
    by_cases h : j = n
    · subst h
      have hlen : j < (f.loopTo dt j).members.length := by
        rw [loopTo_length]
        exact hjlen
      rw [list_getD_set_self _ _ _ _ hlen]
      exact update_speed_le _ _ _ _ _
    · rw [list_getD_set_ne _ n j _ _ (fun hn => h hn.symm)]
      exact ih j (by omega) hjlen

theorem update_members_speed_le (f : Flock) (dt : ℝ) :
    ∀ b ∈ (f.update dt).members, b.velocity.mag ≤ MAX_SPEED := by
  intro b hb
  have hb2 : b ∈ ((f.loopTo dt f.members.length).members.map fun boid =>
      { boid with position := boid.position + dt * boid.velocity }) := hb
  obtain ⟨a, ha, rfl⟩ := List.mem_map.mp hb2
  obtain ⟨j, hj, hget⟩ := list_mem_getD _ a ha
  have hjf : j < f.members.length := by
    rw [loopTo_length] at hj
    exact hj
  have hmag := loopTo_speed_le f dt f.members.length j hjf hjf
  rw [hget] at hmag
  exact hmag

/-- C2: after `step(dt)` (any positive number of steps, any `dt ≥ 0`, any
    population), every agent's velocity magnitude is at most
    `MAX_SPEED = 400`: the speed bound is an invariant of `Flock.update`. -/
theorem speed_bound_invariant (f : Flock) (dt : ℝ) (n : ℕ) (_hdt : 0 ≤ dt) (hn : 0 < n) :
    ∀ b ∈ ((fun g : Flock => g.update dt)^[n] f).members, b.velocity.mag ≤ MAX_SPEED := by
  obtain ⟨m, rfl⟩ : ∃ m, n = m + 1 := ⟨n - 1, by omega⟩
  rw [Function.iterate_succ_apply']
  exact update_members_speed_le _ dt

/-- Witness for C2: one step of `dt = 1` on the empty flock. -/
theorem speed_bound_invariant_witness :
    (0 : ℝ) ≤ 1 ∧ 0 < 1 ∧
      ∀ b ∈ ((fun g : Flock => g.update 1)^[1] (Flock.empty 5 5)).members,
        b.velocity.mag ≤ MAX_SPEED :=
  ⟨by norm_num, by norm_num,
    speed_bound_invariant (Flock.empty 5 5) 1 1 (by norm_num) (by norm_num)⟩

/-! ### Positions seen by the neighbor scan during the in-place loop -/

theorem update_position_eq (b : Boid) (ns : List Boid) (dt : ℝ) (bd : Vec2)
    (ob : Option Vec2) : (b.update ns dt bd ob).position = b.position := rfl

theorem loopTo_map_position (f : Flock) (dt : ℝ) :
    ∀ n, (f.loopTo dt n).members.map Boid.position = f.members.map Boid.position := by
  intro n
  induction n with
  | zero => rfl
  | succ n ih =>
    rw [loopTo_succ, updateStep_members, list_map_set, update_position_eq,
      ← list_getD_map ((f.loopTo dt n).members) Boid.position n default,
      list_set_getD_self]
    exact ih

theorem is_close_congr (m₁ m₂ a₁ a₂ : Boid) (hm : m₁.position = m₂.position)
    (ha : a₁.position = a₂.position) : m₁.is_close a₁ = m₂.is_close a₂ := by
  simp only [Boid.is_close, hm, ha]

theorem filter_map_position_congr (i : ℕ) :
    ∀ (l₁ l₂ : List Boid) (k : ℕ) (m₁ m₂ : Boid),
      l₁.map Boid.position = l₂.map Boid.position → m₁.position = m₂.position →
      ((((l₁.enumFrom k).filter fun p => (p.1 != i) && m₁.is_close p.2).map Prod.snd).map
          Boid.position)
        = ((((l₂.enumFrom k).filter fun p => (p.1 != i) && m₂.is_close p.2).map Prod.snd).map
          Boid.position) := by
  intro l₁
  induction l₁ with
  | nil =>
    intro l₂ k m₁ m₂ hl _
    cases l₂ with
    | nil => rfl
    | cons b t₂ => simp at hl
  | cons a t ih =>
    intro l₂ k m₁ m₂ hl hm
    cases l₂ with
    | nil => simp at hl
    | cons b t₂ =>
      simp only [List.map_cons, List.cons.injEq] at hl
      obtain ⟨hab, ht⟩ := hl
      have hc : ((k != i) && m₁.is_close a) = ((k != i) && m₂.is_close b) := by
        rw [is_close_congr m₁ m₂ a b hm hab]
      simp only [List.enumFrom, List.filter_cons]
      cases hval : ((k != i) && m₁.is_close a) with
      | false =>
        have hval2 : ((k != i) && m₂.is_close b) = false := by rw [← hc]; exact hval
        simp only [hval, hval2, Bool.false_eq_true, if_false]
        exact ih t₂ (k + 1) m₁ m₂ ht hm
      | true =>
        have hval2 : ((k != i) && m₂.is_close b) = true := by rw [← hc]; exact hval
        simp only [hval, hval2, if_true, List.map_cons]
        rw [hab]
        rw [ih t₂ (k + 1) m₁ m₂ ht hm]

theorem neighborList_map_position_congr (f g : Flock) (i : ℕ)
    (h : f.members.map Boid.position = g.members.map Boid.position) :
    (f.neighborList i).map Boid.position = (g.neighborList i).map Boid.position := by
  have hm : (f.members.getD i default).position = (g.members.getD i default).position := by
    rw [← list_getD_map f.members Boid.position i default,
      ← list_getD_map g.members Boid.position i default, h]
  have key := filter_map_position_congr i f.members g.members 0
    (f.members.getD i default) (g.members.getD i default) h hm
  exact key

/-- C1 (amended): during `Flock::update`, all member positions are still
    the pre-step positions when agent `i`'s neighbor list is computed
    (position integration is deferred to a second pass), so the neighbor
    list resolved at iteration `i` of the in-place loop has exactly the
    positions of the neighbor list resolved against the pre-step
    snapshot.  Full state equivalence with the snapshot reference fails —
    see the counterexample — because the velocities carried by those
    neighbors do reflect updates already applied to agents `0..i-1`. -/
theorem neighbor_positions_from_snapshot (f : Flock) (dt : ℝ) (i : ℕ) :
    (f.loopTo dt i).members.map Boid.position = f.members.map Boid.position ∧
      ((f.loopTo dt i).neighborList i).map Boid.position
        = (f.neighborList i).map Boid.position := by
  have hpos := loopTo_map_position f dt i
  exact ⟨hpos, neighborList_map_position_congr _ _ i hpos⟩

/-! ### Concrete evaluation of one step on `exFlock` -/

theorem mag_le_of_magSq_le (v : Vec2) (c : ℝ) (hc : 0 ≤ c) (h : v.magSq ≤ c ^ 2) :
    v.mag ≤ c := by
  calc v.mag = Real.sqrt v.magSq := rfl
  _ ≤ Real.sqrt (c ^ 2) := Real.sqrt_le_sqrt h
  _ = c := Real.sqrt_sq hc

theorem mag_eq_of_sq (v : Vec2) (c : ℝ) (hc : 0 ≤ c) (h : v.magSq = c ^ 2) : v.mag = c := by
  rw [Vec2.mag, h, Real.sqrt_sq hc]

theorem magDown90 : ((⟨0, -90⟩ : Vec2)).mag = 90 :=
  mag_eq_of_sq _ 90 (by norm_num) (by norm_num [Vec2.magSq_def])

theorem magUp90 : ((⟨0, 90⟩ : Vec2)).mag = 90 :=
  mag_eq_of_sq _ 90 (by norm_num) (by norm_num [Vec2.magSq_def])

theorem mag390 : ((⟨390, 0⟩ : Vec2)).mag = 390 :=
  mag_eq_of_sq _ 390 (by norm_num) (by norm_num [Vec2.magSq_def])

theorem magAccA_le : ((⟨100, 300⟩ : Vec2)).mag ≤ 600 :=
  mag_le_of_magSq_le _ 600 (by norm_num) (by norm_num [Vec2.magSq_def])

theorem magAccB_le : ((⟨110, -270⟩ : Vec2)).mag ≤ 600 :=
  mag_le_of_magSq_le _ 600 (by norm_num) (by norm_num [Vec2.magSq_def])

theorem magAccBsnap_le : ((⟨100, -300⟩ : Vec2)).mag ≤ 600 :=
  mag_le_of_magSq_le _ 600 (by norm_num) (by norm_num [Vec2.magSq_def])

theorem magVA_le : ((⟨391, 3⟩ : Vec2)).mag ≤ 400 :=
  mag_le_of_magSq_le _ 400 (by norm_num) (by norm_num [Vec2.magSq_def])

theorem magVB_le : ((⟨3911 / 10, -27 / 10⟩ : Vec2)).mag ≤ 400 :=
  mag_le_of_magSq_le _ 400 (by norm_num) (by norm_num [Vec2.magSq_def])

theorem magVBsnap_le : ((⟨391, -3⟩ : Vec2)).mag ≤ 400 :=
  mag_le_of_magSq_le _ 400 (by norm_num) (by norm_num [Vec2.magSq_def])

theorem icAB : exA.is_close exB = true := by
  simp only [Boid.is_close, decide_eq_true_eq]
  norm_num [exA, exB, Vec2.magSq_def, LOCAL_RANGE_SQ, LOCAL_RANGE]

theorem icBA : exB.is_close exA = true := by
  simp only [Boid.is_close, decide_eq_true_eq]
  norm_num [exA, exB, Vec2.magSq_def, LOCAL_RANGE_SQ, LOCAL_RANGE]

theorem icBA1 : exB.is_close exA1 = true := by
  simp only [Boid.is_close, decide_eq_true_eq]
  norm_num [exA1, exB, Vec2.magSq_def, LOCAL_RANGE_SQ, LOCAL_RANGE]

theorem apA : exA.avoid_point (⟨500, 590⟩ : Vec2) LOCAL_RANGE = ⟨0, -10⟩ := by
  have hd : exA.position - (⟨500, 590⟩ : Vec2) = (⟨0, -90⟩ : Vec2) := by
    apply Vec2.ext <;> simp [exA] <;> norm_num
  simp only [Boid.avoid_point, hd, magDown90]
  rw [if_pos (by norm_num), if_pos (by norm_num [LOCAL_RANGE])]
  apply Vec2.ext <;> simp [LOCAL_RANGE] <;> norm_num

theorem apB : exB.avoid_point (⟨500, 500⟩ : Vec2) LOCAL_RANGE = ⟨0, 10⟩ := by
  have hd : exB.position - (⟨500, 500⟩ : Vec2) = (⟨0, 90⟩ : Vec2) := by
    apply Vec2.ext <;> simp [exB] <;> norm_num
  simp only [Boid.avoid_point, hd, magUp90]
  rw [if_pos (by norm_num), if_pos (by norm_num [LOCAL_RANGE])]
  apply Vec2.ext <;> simp [LOCAL_RANGE] <;> norm_num

theorem att390 (b : Boid) (hv : b.velocity = (⟨390, 0⟩ : Vec2)) :
    b.acc_to_target_speed = ⟨10, 0⟩ := by
  simp only [Boid.acc_to_target_speed, hv, mag390]
  rw [if_pos (by norm_num)]
  apply Vec2.ext <;> simp [MAX_SPEED] <;> norm_num

theorem avA : exA.avoid [exB] = ⟨0, -10⟩ := by
  have hp : exB.position = (⟨500, 590⟩ : Vec2) := rfl
  simp only [Boid.avoid, List.foldl_cons, List.foldl_nil, hp, apA, List.length_cons,
    List.length_nil]
  rw [if_pos (by norm_num)]
  apply Vec2.ext <;> simp <;> norm_num

theorem avB1 : exB.avoid [exA1] = ⟨0, 10⟩ := by
  have hp : exA1.position = (⟨500, 500⟩ : Vec2) := rfl
  simp only [Boid.avoid, List.foldl_cons, List.foldl_nil, hp, apB, List.length_cons,
    List.length_nil]
  rw [if_pos (by norm_num)]
  apply Vec2.ext <;> simp <;> norm_num

theorem avB0 : exB.avoid [exA] = ⟨0, 10⟩ := by
  have hp : exA.position = (⟨500, 500⟩ : Vec2) := rfl
  simp only [Boid.avoid, List.foldl_cons, List.foldl_nil, hp, apB, List.length_cons,
    List.length_nil]
  rw [if_pos (by norm_num)]
  apply Vec2.ext <;> simp <;> norm_num

theorem tcA : exA.to_center [exB] = ⟨0, 90⟩ := by
  simp only [Boid.to_center, center_of_mass, List.length_cons, List.length_nil,
    List.foldl_cons, List.foldl_nil]
  rw [if_neg (by norm_num)]
  simp only [Option.getD_some]
  apply Vec2.ext <;> simp [exA, exB] <;> norm_num

theorem tcB1 : exB.to_center [exA1] = ⟨0, -90⟩ := by
  simp only [Boid.to_center, center_of_mass, List.length_cons, List.length_nil,
    List.foldl_cons, List.foldl_nil]
  rw [if_neg (by norm_num)]
  simp only [Option.getD_some]
  apply Vec2.ext <;> simp [exA1, exB] <;> norm_num

theorem tcB0 : exB.to_center [exA] = ⟨0, -90⟩ := by
  simp only [Boid.to_center, center_of_mass, List.length_cons, List.length_nil,
    List.foldl_cons, List.foldl_nil]
  rw [if_neg (by norm_num)]
  simp only [Option.getD_some]
  apply Vec2.ext <;> simp [exA, exB] <;> norm_num

theorem mhA : exA.match_heading [exB] = ⟨0, 0⟩ := by
  simp only [Boid.match_heading, average_heading, List.length_cons, List.length_nil,
    List.foldl_cons, List.foldl_nil]
  rw [if_pos (by norm_num)]
  apply Vec2.ext <;> simp [exA, exB] <;> norm_num

theorem mhB1 : exB.match_heading [exA1] = ⟨1, 3⟩ := by
  simp only [Boid.match_heading, average_heading, List.length_cons, List.length_nil,
    List.foldl_cons, List.foldl_nil]
  rw [if_pos (by norm_num)]
  apply Vec2.ext <;> simp [exA1, exB] <;> norm_num

theorem mhB0 : exB.match_heading [exA] = ⟨0, 0⟩ := by
  simp only [Boid.match_heading, average_heading, List.length_cons, List.length_nil,
    List.foldl_cons, List.foldl_nil]
  rw [if_pos (by norm_num)]
  apply Vec2.ext <;> simp [exA, exB] <;> norm_num

theorem abA : exA.avoid_bounds (⟨1000, 1000⟩ : Vec2) = 0 := by
  have h1 : ¬ (exA.position.x < MARGIN) := by norm_num [exA, MARGIN]
  have h2 : ¬ (exA.position.y < MARGIN) := by norm_num [exA, MARGIN]
  have h3 : ¬ (exA.position.x > (⟨1000, 1000⟩ : Vec2).x - MARGIN) := by
    norm_num [exA, MARGIN]
  have h4 : ¬ (exA.position.y > (⟨1000, 1000⟩ : Vec2).y - MARGIN) := by
    norm_num [exA, MARGIN]
  simp only [Boid.avoid_bounds, if_neg h1, if_neg h2, if_neg h3, if_neg h4]

theorem abB : exB.avoid_bounds (⟨1000, 1000⟩ : Vec2) = 0 := by
  have h1 : ¬ (exB.position.x < MARGIN) := by norm_num [exB, MARGIN]
  have h2 : ¬ (exB.position.y < MARGIN) := by norm_num [exB, MARGIN]
  have h3 : ¬ (exB.position.x > (⟨1000, 1000⟩ : Vec2).x - MARGIN) := by
    norm_num [exB, MARGIN]
  have h4 : ¬ (exB.position.y > (⟨1000, 1000⟩ : Vec2).y - MARGIN) := by
    norm_num [exB, MARGIN]
  simp only [Boid.avoid_bounds, if_neg h1, if_neg h2, if_neg h3, if_neg h4]

theorem aoNone (b : Boid) : b.avoid_obstacle none = 0 := rfl

theorem updA : exA.update [exB] (1 / 100) (⟨1000, 1000⟩ : Vec2) none = exA1 := by
  simp only [Boid.update, avA, tcA, mhA, att390 exA rfl, abA, aoNone]
  have hacc : (10 : ℝ) *
      ((6 : ℝ) * (⟨0, -10⟩ : Vec2) + ⟨0, 90⟩ + ⟨0, 0⟩ + ⟨10, 0⟩ + 0 + 0)
      = (⟨100, 300⟩ : Vec2) := by
    apply Vec2.ext <;> simp <;> norm_num
  rw [hacc]
  have hclamp1 : clamp_mag (⟨100, 300⟩ : Vec2) MAX_ACC = ⟨100, 300⟩ :=
    clamp_mag_of_not_gt _ _
      (not_lt.mpr (by rw [show MAX_ACC = (600 : ℝ) from rfl]; exact magAccA_le))
  rw [hclamp1]
  have hv1 : exA.velocity + (⟨100, 300⟩ : Vec2) * ((1 : ℝ) / 100) = (⟨391, 3⟩ : Vec2) := by
    apply Vec2.ext <;> simp [exA] <;> norm_num
  rw [hv1]
  have hclamp2 : clamp_mag (⟨391, 3⟩ : Vec2) MAX_SPEED = ⟨391, 3⟩ :=
    clamp_mag_of_not_gt _ _
      (not_lt.mpr (by rw [show MAX_SPEED = (400 : ℝ) from rfl]; exact magVA_le))
  rw [hclamp2]
  rfl

theorem updB1 : exB.update [exA1] (1 / 100) (⟨1000, 1000⟩ : Vec2) none = exB1 := by
  simp only [Boid.update, avB1, tcB1, mhB1, att390 exB rfl, abB, aoNone]
  have hacc : (10 : ℝ) *
      ((6 : ℝ) * (⟨0, 10⟩ : Vec2) + ⟨0, -90⟩ + ⟨1, 3⟩ + ⟨10, 0⟩ + 0 + 0)
      = (⟨110, -270⟩ : Vec2) := by
    apply Vec2.ext <;> simp <;> norm_num
  rw [hacc]
  have hclamp1 : clamp_mag (⟨110, -270⟩ : Vec2) MAX_ACC = ⟨110, -270⟩ :=
    clamp_mag_of_not_gt _ _
      (not_lt.mpr (by rw [show MAX_ACC = (600 : ℝ) from rfl]; exact magAccB_le))
  rw [hclamp1]
  have hv1 : exB.velocity + (⟨110, -270⟩ : Vec2) * ((1 : ℝ) / 100)
      = (⟨3911 / 10, -27 / 10⟩ : Vec2) := by
    apply Vec2.ext <;> simp [exB] <;> norm_num
  rw [hv1]
  have hclamp2 : clamp_mag (⟨3911 / 10, -27 / 10⟩ : Vec2) MAX_SPEED
      = ⟨3911 / 10, -27 / 10⟩ :=
    clamp_mag_of_not_gt _ _
      (not_lt.mpr (by rw [show MAX_SPEED = (400 : ℝ) from rfl]; exact magVB_le))
  rw [hclamp2]
  rfl

theorem updB0 : exB.update [exA] (1 / 100) (⟨1000, 1000⟩ : Vec2) none = exB1snap := by
  simp only [Boid.update, avB0, tcB0, mhB0, att390 exB rfl, abB, aoNone]
  have hacc : (10 : ℝ) *
      ((6 : ℝ) * (⟨0, 10⟩ : Vec2) + ⟨0, -90⟩ + ⟨0, 0⟩ + ⟨10, 0⟩ + 0 + 0)
      = (⟨100, -300⟩ : Vec2) := by
    apply Vec2.ext <;> simp <;> norm_num
  rw [hacc]
  have hclamp1 : clamp_mag (⟨100, -300⟩ : Vec2) MAX_ACC = ⟨100, -300⟩ :=
    clamp_mag_of_not_gt _ _
      (not_lt.mpr (by rw [show MAX_ACC = (600 : ℝ) from rfl]; exact magAccBsnap_le))
  rw [hclamp1]
  have hv1 : exB.velocity + (⟨100, -300⟩ : Vec2) * ((1 : ℝ) / 100) = (⟨391, -3⟩ : Vec2) := by
    apply Vec2.ext <;> simp [exB] <;> norm_num
  rw [hv1]
  have hclamp2 : clamp_mag (⟨391, -3⟩ : Vec2) MAX_SPEED = ⟨391, -3⟩ :=
    clamp_mag_of_not_gt _ _
      (not_lt.mpr (by rw [show MAX_SPEED = (400 : ℝ) from rfl]; exact magVBsnap_le))
  rw [hclamp2]
  rfl

theorem neighborList_pair_zero (f : Flock) (a b : Boid) (hm : f.members = [a, b])
    (hc : a.is_close b = true) : f.neighborList 0 = [b] := by
  unfold Flock.neighborList
  rw [hm]
  have hma : ([a, b] : List Boid).getD 0 default = a := rfl
  rw [hma]
  have he : ([a, b] : List Boid).enum = [(0, a), (1, b)] := rfl
  rw [he]
  simp [List.filter_cons, List.filter_nil, hc]

theorem neighborList_pair_one (f : Flock) (a b : Boid) (hm : f.members = [a, b])
    (hc : b.is_close a = true) : f.neighborList 1 = [a] := by
  unfold Flock.neighborList
  rw [hm]
  have hmb : ([a, b] : List Boid).getD 1 default = b := rfl
  rw [hmb]
  have he : ([a, b] : List Boid).enum = [(0, a), (1, b)] := rfl
  rw [he]
  simp [List.filter_cons, List.filter_nil, hc]

theorem nb0 : exFlock.neighborList 0 = [exB] :=
  neighborList_pair_zero exFlock exA exB rfl icAB

theorem nbS1 : exFlock.neighborList 1 = [exA] :=
  neighborList_pair_one exFlock exA exB rfl icBA

theorem l1m : (exFlock.loopTo (1 / 100) 1).members = [exA1, exB] := by
  rw [show (1 : ℕ) = 0 + 1 from rfl, loopTo_succ, loopTo_zero, updateStep_members, nb0]
  have hg : exFlock.members.getD 0 default = exA := rfl
  have hb : exFlock.bounds = (⟨1000, 1000⟩ : Vec2) := rfl
  have ho : exFlock.obstacle = (none : Option Vec2) := rfl
  rw [hg, hb, ho, updA]
  rfl

theorem l1bounds : (exFlock.loopTo (1 / 100) 1).bounds = ⟨1000, 1000⟩ := by
  rw [show (1 : ℕ) = 0 + 1 from rfl, loopTo_succ, updateStep_bounds]
  rfl

theorem l1obs : (exFlock.loopTo (1 / 100) 1).obstacle = none := by
  rw [show (1 : ℕ) = 0 + 1 from rfl, loopTo_succ, updateStep_obstacle]
  rfl

theorem nb1 : (exFlock.loopTo (1 / 100) 1).neighborList 1 = [exA1] :=
  neighborList_pair_one _ exA1 exB l1m icBA1

theorem l2m : (exFlock.loopTo (1 / 100) 2).members = [exA1, exB1] := by
  rw [show (2 : ℕ) = 1 + 1 from rfl, loopTo_succ, updateStep_members, nb1]
  have hg : (exFlock.loopTo (1 / 100) 1).members.getD 1 default = exB := by
    rw [l1m]
    rfl
  rw [hg, l1bounds, l1obs, updB1, l1m]
  rfl

theorem update_members_map_velocity (f : Flock) (dt : ℝ) :
    (f.update dt).members.map Boid.velocity
      = (f.loopTo dt f.members.length).members.map Boid.velocity := by
  show ((f.loopTo dt f.members.length).members.map _).map Boid.velocity = _
  rw [List.map_map]
  rfl

theorem snapshot_members_map_velocity (f : Flock) (dt : ℝ) :
    (f.snapshotUpdate dt).members.map Boid.velocity
      = ((List.range f.members.length).map fun i =>
          (f.members.getD i default).update (f.neighborList i) dt f.bounds f.obstacle).map
          Boid.velocity := by
  show (((List.range f.members.length).map _).map _).map Boid.velocity = _
  rw [List.map_map]
  rfl

theorem updv : (exFlock.update (1 / 100)).members.map Boid.velocity
    = [(⟨391, 3⟩ : Vec2), ⟨3911 / 10, -27 / 10⟩] := by
  rw [update_members_map_velocity]
  have hl : exFlock.members.length = 2 := rfl
  rw [hl, l2m]
  rfl

theorem snapv : (exFlock.snapshotUpdate (1 / 100)).members.map Boid.velocity
    = [(⟨391, 3⟩ : Vec2), ⟨391, -3⟩] := by
  rw [snapshot_members_map_velocity]
  have hl : exFlock.members.length = 2 := rfl
  rw [hl]
  have hr : List.range 2 = [0, 1] := by decide
  rw [hr]
  simp only [List.map_cons, List.map_nil]
  have h0 : exFlock.members.getD 0 default = exA := rfl
  have h1 : exFlock.members.getD 1 default = exB := rfl
  have hb : exFlock.bounds = (⟨1000, 1000⟩ : Vec2) := rfl
  have ho : exFlock.obstacle = (none : Option Vec2) := rfl
  rw [h0, h1, hb, ho, nb0, nbS1, updA, updB0]
  rfl

/-- C1 (counterexample): on the concrete two-boid population `exFlock`
    with `dt = 1/100`, the in-place `Flock::update` and the reference
    step resolving every neighbor list against the pre-step snapshot
    produce different post-step states: agent 1's alignment term saw
    agent 0's already-updated velocity `(391, 3)` instead of the pre-step
    `(390, 0)`, giving agent 1 velocity `(391.1, -2.7)` instead of
    `(391, -3)`. -/
theorem inplace_step_ne_snapshot_step :
    exFlock.update (1 / 100) ≠ exFlock.snapshotUpdate (1 / 100) := by
  intro h
  have hv : (exFlock.update (1 / 100)).members.map Boid.velocity
      = (exFlock.snapshotUpdate (1 / 100)).members.map Boid.velocity := by rw [h]
  rw [updv, snapv] at hv
  simp only [List.cons.injEq, Vec2.mk.injEq] at hv
  norm_num at hv

end
